import Mathlib

/-!
Shallow embedding of the gmail-prom-exporter core (src/auth.rs, src/mail.rs,
src/main.rs) and proofs about it.

Conventions of the embedding:
- Network transports and the two external crates mailparse and chrono are
  modelled as explicit function parameters (oracles): a call site that in Rust
  performs an HTTP request takes a function producing the decoded response.
- A response body probed at json["error"]["code"] is modelled by the
  Option Int value of that probe (none when the field is absent or not a
  number), paired with the typed payload the endpoint would deserialize.
- Rust panics (unwrap / expect) on the enrichment path are modelled as
  Except errors: the process aborts, no partial value is produced.
- Rust HashMap String String is modelled as an association list with
  first-match lookup (keys are unique in the map the program builds).
-/

namespace GmailExporter

/-- Error taxonomy for the credential store, following the spec names. -/
inductive AuthError where
  | Unauthenticated
  | ExchangeFailed
  | NoRefreshToken
  | RefreshFailed
  deriving DecidableEq, Repr

/-- Error taxonomy for message enrichment. AddressParse models the addrparse
unwrap panics, TimestampParse the internalDate parse and range panics,
MalformedPayload the serde from_value unwrap panic. -/
inductive EnrichError where
  | AddressParse
  | TimestampParse
  | MalformedPayload
  deriving DecidableEq, Repr

/-- mailparse::SingleInfo: one parsed mailbox. -/
structure SingleInfo where
  display_name : Option String
  addr : String
  deriving DecidableEq, Repr

/-- mailparse::MailAddr: a single mailbox or a named group. -/
inductive MailAddr where
  | Single (info : SingleInfo)
  | Group (group_name : String) (addrs : List SingleInfo)
  deriving DecidableEq, Repr

/-- mailparse::MailAddrList is a vector of MailAddr values. -/
abbrev MailAddrList := List MailAddr

/-- MinimalMessage from mail.rs: the lightweight message reference. -/
structure MinimalMessage where
  id : String
  thread_id : String
  deriving DecidableEq, Repr

/-- MessageHeader from mail.rs. -/
structure MessageHeader where
  name : String
  value : String
  deriving DecidableEq, Repr

/-- MessagePart from mail.rs (the fields the program deserializes). -/
structure MessagePart where
  part_id : String
  mime_type : String
  filename : String
  headers : List MessageHeader
  deriving DecidableEq, Repr

/-- MessageDetails from mail.rs: the full message payload. -/
structure MessageDetails where
  id : String
  thread_id : String
  label_ids : List String
  snippet : String
  history_id : String
  internal_date : String
  payload : MessagePart
  size_estimate : Nat
  deriving DecidableEq, Repr

/-- MessageAdded from mail.rs: a history entry payload carrying one message. -/
structure MessageAdded where
  message : MinimalMessage
  deriving DecidableEq, Repr

/-- History from mail.rs: one history entry; messagesAdded is optional. -/
structure History where
  id : String
  messages_added : Option (List MessageAdded)
  deriving DecidableEq, Repr

/-- HistoryResponse from mail.rs: one page of the history listing. -/
structure HistoryResponse where
  history : Option (List History)
  next_page_token : Option String
  history_id : String
  deriving DecidableEq, Repr

/-- GoogleAuth from auth.rs: the credential state. -/
structure GoogleAuth where
  client_id : String
  client_secret : String
  access_token : Option String
  refresh_token : Option String
  deriving DecidableEq, Repr

/-- UsableMessageDetails from mail.rs: the enriched event. The chrono
DateTime is modelled by its millisecond timestamp. The Rust fields from and
to are named from_addr and to_addr here because both are Lean keywords. -/
structure UsableMessageDetails where
  id : String
  thread_id : String
  history_id : String
  labels : List String
  internal_date : Int
  from_addr : MailAddrList
  to_addr : MailAddrList
  subject : String
  deriving DecidableEq, Repr

/-- GoogleAuth::needs_refresh from auth.rs: true iff the response body has
json["error"]["code"] equal to the number 401. The argument is the value of
that probe. -/
def needs_refresh (errorCode : Option Int) : Bool :=
  errorCode == some 401

/-- The retry loop wrapped around every provider call in mail.rs
(load_labels, fetch_mail, fetch_mail_details, fetch_history): send the
request, and if needs_refresh holds on the body, call do_refresh and loop;
otherwise exit the loop with the body. The input list is the stream of
responses the provider returns to the successive attempts; the result pairs
the response the loop exits with and the number of do_refresh calls made.
none means the loop consumed every provided response without exiting. -/
def authLoop {α : Type} : List (Option Int × α) → Option ((Option Int × α) × Nat)
  | [] => none
  | r :: rest =>
    if needs_refresh r.1 then
      (authLoop rest).map (fun p => (p.1, p.2 + 1))
    else
      some (r, 0)

/-- Response body of the token refresh endpoint: the value of
response_json["access_token"].as_str(). -/
structure RefreshResponse where
  access_token : Option String
  deriving DecidableEq, Repr

/-- GoogleAuth::do_refresh from auth.rs. The transport oracle receives
client_id, client_secret and the refresh token and returns the decoded
response, or none for a transport failure. The expect panics are modelled as
errors: a missing refresh token aborts before any request, and a transport
failure or a response without access_token aborts after it; on success only
the access_token field is replaced. -/
def do_refresh (transport : String → String → String → Option RefreshResponse)
    (auth : GoogleAuth) : Except AuthError GoogleAuth :=
  match auth.refresh_token with
  | none => .error .NoRefreshToken
  | some rt =>
    match transport auth.client_id auth.client_secret rt with
    | none => .error .RefreshFailed
    | some resp =>
      match resp.access_token with
      | none => .error .RefreshFailed
      | some tok => .ok { auth with access_token := some tok }

/-- Model of Rust str::to_lowercase as used on address strings (ASCII case
mapping; the addresses involved are ASCII). -/
def to_lowercase (s : String) : String :=
  String.mk (s.data.map Char.toLower)

/-- Model of Rust str::split with a one-character separator, on the character
list of the string: splitting always yields at least one segment, the empty
string yields one empty segment, and separators at the ends yield empty
segments, exactly as in Rust. -/
def splitChars (sep : Char) : List Char → List (List Char)
  | [] => [[]]
  | c :: cs =>
    if c = sep then
      [] :: splitChars sep cs
    else
      match splitChars sep cs with
      | [] => [[c]]
      | seg :: segs => (c :: seg) :: segs

/-- Model of first.split("@") in ParseForMetrics::first_domain. -/
def splitAt (s : String) : List String :=
  (splitChars '@' s.data).map (fun cs => String.mk cs)

/-- ParseForMetrics::first_single_mailer from mail.rs: the first Single entry
of the address list, skipping groups. -/
def first_single_mailer : MailAddrList → Option SingleInfo
  | [] => none
  | MailAddr.Single x :: _ => some x
  | MailAddr.Group _ _ :: rest => first_single_mailer rest

/-- ParseForMetrics::first_address from mail.rs: the lowercased address of
the first single mailer. -/
def first_address (l : MailAddrList) : Option String :=
  match first_single_mailer l with
  | some first => some (to_lowercase first.addr)
  | none => none

/-- ParseForMetrics::first_domain from mail.rs: split the first address on
the at sign, take the last segment (the source unwraps here; the unwrap is
modelled by the Option of getLast?) and lowercase it. -/
def first_domain (l : MailAddrList) : Option String :=
  match first_address l with
  | some first => ((splitAt first).getLast?).map to_lowercase
  | none => none

/-- ParseForMetrics::first_display_name from mail.rs. -/
def first_display_name (l : MailAddrList) : Option String :=
  match first_single_mailer l with
  | some first => first.display_name
  | none => none

/-- UsableMessageDetails::as_labels from mail.rs: the metric label pairs for
one enriched event, in push order, with unknown used when an address or
domain is unavailable, followed by one label_ entry per resolved label. -/
def UsableMessageDetails.as_labels (d : UsableMessageDetails) : List (String × String) :=
  [("from", (first_address d.from_addr).getD "unknown"),
   ("to", (first_address d.to_addr).getD "unknown"),
   ("from_domain", (first_domain d.to_addr).getD "unknown"),
   ("to_domain", (first_domain d.to_addr).getD "unknown")]
  ++ d.labels.map (fun label => ("label_" ++ label, "true"))

/-- The header scan in UsableMessageDetails::from: the loop assigns the value
of every header whose name matches, so the last matching header wins and a
missing header leaves the empty string. -/
def headerValue (name : String) (headers : List MessageHeader) : String :=
  headers.foldl (fun acc h => if h.name == name then h.value else acc) ""

/-- Model of Rust str::parse for i64, applied to internalDate: an optional
sign followed by at least one ASCII digit, rejecting values outside the i64
range. -/
def parseI64 (s : String) : Option Int :=
  let p : Int × List Char :=
    match s.data with
    | '-' :: rest => (-1, rest)
    | '+' :: rest => (1, rest)
    | chars => (1, chars)
  if p.2.isEmpty then none
  else if p.2.all Char.isDigit then
    let n : Nat := p.2.foldl (fun acc c => acc * 10 + (c.toNat - '0'.toNat)) 0
    let v : Int := p.1 * n
    if -(2 : Int) ^ 63 ≤ v ∧ v ≤ 2 ^ 63 - 1 then some v else none
  else none

/-- UsableMessageDetails::from, from mail.rs. The addrparse oracle models the
mailparse crate (none is a parse failure, which the source unwraps: modelled
as EnrichError.AddressParse, the To header being unwrapped first). tsInRange
models chrono timestamp_millis_opt().latest() being Some (the source expects
it; a millisecond value chrono cannot represent is TimestampParse, as is an
internalDate that does not parse as i64). Labels are resolved through the
catalog, unresolved ids passing through verbatim. -/
def UsableMessageDetails.from_details
    (addrparse : String → Option MailAddrList) (tsInRange : Int → Bool)
    (message : MessageDetails) (labels : List (String × String)) :
    Except EnrichError UsableMessageDetails :=
  match addrparse (headerValue "To" message.payload.headers) with
  | none => .error .AddressParse
  | some to_parsed =>
    match addrparse (headerValue "From" message.payload.headers) with
    | none => .error .AddressParse
    | some from_parsed =>
      match parseI64 message.internal_date with
      | none => .error .TimestampParse
      | some ms =>
        if tsInRange ms then
          .ok { id := message.id
                thread_id := message.thread_id
                history_id := message.history_id
                labels := message.label_ids.map (fun x => (labels.lookup x).getD x)
                internal_date := ms
                from_addr := from_parsed
                to_addr := to_parsed
                subject := headerValue "Subject" message.payload.headers }
        else
          .error .TimestampParse

/-- MailClient::fetch_mail_details from mail.rs. The fetchDetail oracle
yields, per reference, the response after the auth retry loop: the value of
res["error"]["code"] and the serde decoding of the body (none models a body
from_value cannot decode, which the source unwraps). A 404 envelope skips
the reference; otherwise the payload is enriched and pushed, and any
enrichment abort aborts the whole run. -/
def fetch_mail_details
    (fetchDetail : MinimalMessage → Option Int × Option MessageDetails)
    (addrparse : String → Option MailAddrList) (tsInRange : Int → Bool)
    (listing : List MinimalMessage) (labels : List (String × String)) :
    Except EnrichError (List UsableMessageDetails) :=
  match listing with
  | [] => .ok []
  | m :: rest =>
    let r := fetchDetail m
    if r.1 == some 404 then
      fetch_mail_details fetchDetail addrparse tsInRange rest labels
    else
      match r.2 with
      | none => .error .MalformedPayload
      | some details =>
        match UsableMessageDetails.from_details addrparse tsInRange details labels with
        | .error e => .error e
        | .ok usable =>
          match fetch_mail_details fetchDetail addrparse tsInRange rest labels with
          | .error e => .error e
          | .ok results => .ok (usable :: results)

/-- The accumulation step of MailClient::fetch_history for one page: every
message carried by a messagesAdded entry, in page order; a page without a
history array and an entry without messagesAdded contribute nothing. -/
def pageMessages (p : HistoryResponse) : List MinimalMessage :=
  (p.history.getD []).flatMap (fun h => (h.messages_added.getD []).map MessageAdded.message)

/-- MailClient::fetch_history from mail.rs. The provider oracle maps a page
token (none for the first request) to the decoded page after the auth retry
loop, or none when no response is available. fuel bounds the number of page
requests; none is returned when the token chain does not terminate within
fuel pages. The accumulator is the history_list vector. -/
def fetch_history (provider : Option String → Option HistoryResponse) :
    Nat → Option String → List MinimalMessage → Option (List MinimalMessage)
  | 0, _, _ => none
  | fuel + 1, page_token, history_list =>
    match provider page_token with
    | none => none
    | some page =>
      let history_list := history_list ++ pageMessages page
      match page.next_page_token with
      | none => some history_list
      | some t => fetch_history provider fuel (some t) history_list

/-- The chain of pages reached from a token by following nextPageToken until
a page without one, within fuel requests. -/
def pageChain (provider : Option String → Option HistoryResponse) :
    Nat → Option String → Option (List HistoryResponse)
  | 0, _ => none
  | fuel + 1, page_token =>
    match provider page_token with
    | none => none
    | some page =>
      match page.next_page_token with
      | none => some [page]
      | some t => (pageChain provider fuel (some t)).map (fun ps => page :: ps)

/-- The watermark update of one FetchRecentMail cycle in main.rs: when the
enriched batch is non-empty, starting_from becomes the history_id of its
last element; otherwise it is left unchanged. -/
def updateWatermark (starting_from : String) (mail_details : List UsableMessageDetails) : String :=
  match mail_details.getLast? with
  | some last => last.history_id
  | none => starting_from

/-- The counter increments emitted by one FetchRecentMail cycle in main.rs:
for a non-empty batch, one email_received increment per enriched event with
its label set; nothing otherwise. No other counter is touched by the loop. -/
def cycleCounterIncrements (mail_details : List UsableMessageDetails) :
    List (String × List (String × String)) :=
  if mail_details.isEmpty then []
  else mail_details.map (fun m => ("email_received", m.as_labels))

/-- Numeric reading of a history id or watermark string (the provider issues
decimal history ids); unparsable strings read as zero. -/
def historyNum (s : String) : Int :=
  (parseI64 s).getD 0

/-! Theorems. -/

/-- C1 counterexample: two consecutive authorization-failure responses do not
make the operation fail, and a third attempt is made. With the response
stream 401, 401, success, the retry loop performs a second refresh and
returns the third response; no RefreshFailed surfaces and the claimed bound
of one retry is exceeded. -/
theorem authLoop_second_auth_failure_retries_again :
    authLoop [((some 401 : Option Int), "attempt1"), (some 401, "attempt2"), (none, "attempt3")]
      = some ((none, "attempt3"), 2) := by
  rfl

/-- C1 (amended): the retry loop wrapped around every provider call refreshes
and retries without bound: for any number k of consecutive
authorization-failure responses followed by a response that does not signal
authorization failure, the loop performs exactly k refreshes and exits with
that response; it never surfaces an error. -/
theorem authLoop_retries_until_non_auth_response {α : Type} :
    ∀ (k : Nat) (bad good : Option Int × α) (rest : List (Option Int × α)),
      needs_refresh bad.1 = true → needs_refresh good.1 = false →
      authLoop (List.replicate k bad ++ good :: rest) = some (good, k) := by
  intro k
  induction k with
  | zero =>
    intro bad good rest _ hgood
    simp [authLoop, hgood]
  | succ n ih =>
    intro bad good rest hbad hgood
    rw [List.replicate_succ, List.cons_append]
    simp only [authLoop, hbad, if_true]
    rw [ih bad good rest hbad hgood]
    rfl

/-- C1 witness: the amended theorem applied to two authorization failures
followed by a success. -/
theorem authLoop_retries_witness :
    authLoop (List.replicate 2 ((some 401 : Option Int), "bad") ++ (none, "good") :: [])
      = some ((none, "good"), 2) :=
  authLoop_retries_until_non_auth_response 2 (some 401, "bad") (none, "good") []
    (by decide) (by decide)

/-- Helper for C2: fetch_history on a terminating token chain accumulates
exactly the pages of the chain. -/
theorem fetch_history_eq_chain (provider : Option String → Option HistoryResponse) :
    ∀ (fuel : Nat) (tok : Option String) (pages : List HistoryResponse)
      (acc : List MinimalMessage),
      pageChain provider fuel tok = some pages →
      fetch_history provider fuel tok acc = some (acc ++ pages.flatMap pageMessages) := by
  intro fuel
  induction fuel with
  | zero =>
    intro tok pages acc h
    simp [pageChain] at h
  | succ n ih =>
    intro tok pages acc h
    rw [pageChain] at h
    rw [fetch_history]
    cases hp : provider tok with
    | none => rw [hp] at h; exact absurd h (by simp)
    | some page =>
      rw [hp] at h
      dsimp only at h ⊢
      cases hn : page.next_page_token with
      | none =>
        rw [hn] at h
        dsimp only at h ⊢
        simp only [Option.some.injEq] at h
        subst h
        simp
      | some t =>
        rw [hn] at h
        dsimp only at h ⊢
        rw [Option.map_eq_some'] at h
        obtain ⟨ps, hps, hcons⟩ := h
        subst hcons
        rw [ih (some t) ps (acc ++ pageMessages page) hps]
        simp

/-- C2: fetch_history returns exactly the concatenation, in page order and
in-page order, of the messages carried by messagesAdded entries over every
page reached by following nextPageToken until a page without one; a page
with no history array contributes the empty list (so an empty history yields
the empty list without error), and a history entry without messagesAdded
contributes nothing. -/
theorem fetch_history_paginates :
    (∀ (provider : Option String → Option HistoryResponse) (fuel : Nat)
       (tok : Option String) (pages : List HistoryResponse),
       pageChain provider fuel tok = some pages →
       fetch_history provider fuel tok [] = some (pages.flatMap pageMessages)) ∧
    (∀ hid : String, fetch_history (fun _ => some ⟨none, none, hid⟩) 1 none [] = some []) ∧
    (∀ (hid eid : String) (npt : Option String) (rest : List History),
       pageMessages ⟨some (⟨eid, none⟩ :: rest), npt, hid⟩
         = pageMessages ⟨some rest, npt, hid⟩) := by
  refine ⟨?_, ?_, ?_⟩
  · intro provider fuel tok pages h
    simpa using fetch_history_eq_chain provider fuel tok pages [] h
  · intro hid
    rfl
  · intro hid eid npt rest
    simp [pageMessages]

/-- Concrete page 1 for the pagination witness. -/
def c2page1 : HistoryResponse :=
  ⟨some [⟨"h1", some [⟨⟨"m1", "t1"⟩⟩]⟩], some "p2", "101"⟩

/-- Concrete page 2 for the pagination witness: one entry of another history
kind (no messagesAdded) followed by one entry carrying two messages. -/
def c2page2 : HistoryResponse :=
  ⟨some [⟨"h2", none⟩, ⟨"h3", some [⟨⟨"m2", "t1"⟩⟩, ⟨⟨"m3", "t2"⟩⟩]⟩], some "p3", "120"⟩

/-- Concrete final page for the pagination witness: no history array and no
next token. -/
def c2page3 : HistoryResponse :=
  ⟨none, none, "150"⟩

/-- Concrete provider for the pagination witness. -/
def c2provider : Option String → Option HistoryResponse
  | none => some c2page1
  | some "p2" => some c2page2
  | some "p3" => some c2page3
  | _ => none

/-- C2 witness: the pagination theorem applied to a concrete three-page
chain. -/
theorem fetch_history_paginates_witness :
    fetch_history c2provider 3 none []
      = some ([c2page1, c2page2, c2page3].flatMap pageMessages) :=
  fetch_history_paginates.1 c2provider 3 none [c2page1, c2page2, c2page3] (by decide)

/-- C3: the watermark after a cycle with an empty batch is unchanged; after a
cycle with a non-empty batch it is the history_id of the last event of the
batch; and, under the provider guarantee that every event delivered for a
sync from watermark w carries a history id at least w (the spec treats
history ids as monotonically increasing provider-issued identifiers), the
resulting watermark is never numerically smaller than the input watermark. -/
theorem updateWatermark_advances :
    (∀ w : String, updateWatermark w [] = w) ∧
    (∀ (w : String) (batch : List UsableMessageDetails) (m : UsableMessageDetails),
       batch.getLast? = some m → updateWatermark w batch = m.history_id) ∧
    (∀ (w : String) (batch : List UsableMessageDetails),
       (∀ m ∈ batch, historyNum w ≤ historyNum m.history_id) →
       historyNum w ≤ historyNum (updateWatermark w batch)) := by
  refine ⟨?_, ?_, ?_⟩
  · intro w
    rfl
  · intro w batch m h
    simp [updateWatermark, h]
  · intro w batch h
    unfold updateWatermark
    cases hl : batch.getLast? with
    | none => exact le_refl _
    | some m => exact h m (List.mem_of_mem_getLast? hl)

/-- Concrete enriched event with history id 150 for watermark witnesses. -/
def c3event : UsableMessageDetails :=
  ⟨"m9", "t9", "150", [], 0, [], [], ""⟩

/-- C3 witness: the watermark theorem applied to watermark 100 and a
one-event batch with history id 150. -/
theorem updateWatermark_advances_witness :
    updateWatermark "100" [c3event] = "150" ∧
    historyNum "100" ≤ historyNum (updateWatermark "100" [c3event]) :=
  ⟨updateWatermark_advances.2.1 "100" [c3event] c3event (by decide),
   updateWatermark_advances.2.2 "100" [c3event] (by decide)⟩

/-- Concrete enriched event for the counter counterexample. -/
def c4event : UsableMessageDetails :=
  ⟨"m1", "t1", "120", ["INBOX"], 0, [], [], ""⟩

/-- C4 counterexample: the watch loop increments no counter named
email_polls. In a cycle whose batch is empty, and equally in a cycle with one
event, the emitted increments contain zero email_polls entries, not exactly
one per iteration as claimed. -/
theorem no_email_polls_counter :
    ((cycleCounterIncrements []).countP (fun c => c.1 == "email_polls") = 0) ∧
    ((cycleCounterIncrements [c4event]).countP (fun c => c.1 == "email_polls") = 0) := by
  constructor
  · rfl
  · rfl

/-- C4 (amended): the watch loop increments no email_polls counter at all;
the only counter it touches is email_received, incremented once per enriched
event of the cycle. -/
theorem cycle_counters_are_email_received_only :
    ∀ batch : List UsableMessageDetails,
      (cycleCounterIncrements batch).countP (fun c => c.1 == "email_polls") = 0 ∧
      (cycleCounterIncrements batch).countP (fun c => c.1 == "email_received") = batch.length := by
  intro batch
  cases batch with
  | nil => exact ⟨rfl, rfl⟩
  | cons x xs =>
    unfold cycleCounterIncrements
    simp [List.countP_map, Function.comp]

/-- C5: the metric label set of every enriched event assigns to the key
from_domain the (lowercased) domain derived from the To address, the same
value it assigns to to_domain, so the two label values always coincide. -/
theorem as_labels_from_domain_is_to_domain :
    ∀ d : UsableMessageDetails,
      (d.as_labels).lookup "from_domain" = some ((first_domain d.to_addr).getD "unknown") ∧
      (d.as_labels).lookup "from_domain" = (d.as_labels).lookup "to_domain" := by
  intro d
  constructor
  · rfl
  · rfl

/-- C6: a reference whose detail fetch returns a not-found envelope (error
code 404) is skipped without producing an event or an error: the run over a
listing containing it equals the run over the listing with it removed, so
enrichment continues with the remaining references and the sync does not
fail on its account. -/
theorem fetch_mail_details_skips_404 :
    ∀ (fd : MinimalMessage → Option Int × Option MessageDetails)
      (pa : String → Option MailAddrList) (ts : Int → Bool)
      (cat : List (String × String)) (xs ys : List MinimalMessage)
      (m : MinimalMessage) (md : Option MessageDetails),
      fd m = (some 404, md) →
      fetch_mail_details fd pa ts (xs ++ m :: ys) cat
        = fetch_mail_details fd pa ts (xs ++ ys) cat := by
  intro fd pa ts cat xs
  induction xs with
  | nil =>
    intro ys m md h
    simp only [List.nil_append]
    rw [fetch_mail_details]
    rw [h]
    simp
  | cons x xs ih =>
    intro ys m md h
    simp only [List.cons_append, fetch_mail_details, List.append_eq]
    rw [ih ys m md h]

/-- Concrete reference skipped in the 404 witness. -/
def c6m1 : MinimalMessage := ⟨"m1", "t1"⟩

/-- Concrete surviving reference in the 404 witness. -/
def c6m2 : MinimalMessage := ⟨"m2", "t1"⟩

/-- Concrete payload for the surviving reference in the 404 witness. -/
def c6details2 : MessageDetails :=
  ⟨"m2", "t1", ["L1"], "", "130", "0",
   ⟨"0", "text/plain", "", [⟨"From", "a@b"⟩, ⟨"To", "c@d"⟩]⟩, 0⟩

/-- Concrete detail-fetch oracle for the 404 witness: not-found for m1, a
payload for everything else. -/
def c6fetch : MinimalMessage → Option Int × Option MessageDetails :=
  fun m => if m.id == "m1" then (some 404, none) else ((none : Option Int), some c6details2)

/-- Concrete address parser for the 404 witness. -/
def c6addrparse : String → Option MailAddrList :=
  fun s => some [MailAddr.Single ⟨none, s⟩]

/-- Concrete chrono range oracle for the 404 witness. -/
def c6tsInRange : Int → Bool := fun _ => true

/-- C6 witness: the skip theorem applied to a concrete two-element listing
whose first reference returns a 404 envelope. -/
theorem fetch_mail_details_skips_404_witness :
    fetch_mail_details c6fetch c6addrparse c6tsInRange [c6m1, c6m2] []
      = fetch_mail_details c6fetch c6addrparse c6tsInRange [c6m2] [] :=
  fetch_mail_details_skips_404 c6fetch c6addrparse c6tsInRange [] [] [c6m2] c6m1 none
    (by decide)

/-- C7: whenever enrichment succeeds, the labels of the event are exactly the
label ids of the message mapped through the catalog, in the same order, with
an id not in the catalog passing through verbatim; in particular no label id
is dropped. -/
theorem from_details_resolves_labels :
    ∀ (pa : String → Option MailAddrList) (ts : Int → Bool)
      (msg : MessageDetails) (cat : List (String × String)) (u : UsableMessageDetails),
      UsableMessageDetails.from_details pa ts msg cat = .ok u →
      u.labels = msg.label_ids.map (fun x => (cat.lookup x).getD x) ∧
      u.labels.length = msg.label_ids.length := by
  intro pa ts msg cat u h
  unfold UsableMessageDetails.from_details at h
  split at h
  · exact absurd h (by simp)
  · split at h
    · exact absurd h (by simp)
    · split at h
      · exact absurd h (by simp)
      · split at h
        · injection h with h2
          subst h2
          exact ⟨rfl, by simp⟩
        · exact absurd h (by simp)

/-- Concrete message for the label-resolution witness: two label ids, one in
the catalog and one not. -/
def c7msg : MessageDetails :=
  ⟨"id1", "t1", ["L1", "Lx"], "", "140", "0", ⟨"0", "", "", []⟩, 0⟩

/-- Concrete label catalog for the label-resolution witness. -/
def c7cat : List (String × String) := [("L1", "Inbox")]

/-- Concrete address parser for the label-resolution witness. -/
def c7addrparse : String → Option MailAddrList :=
  fun s => some [MailAddr.Single ⟨none, s⟩]

/-- Concrete chrono range oracle for the label-resolution witness. -/
def c7tsInRange : Int → Bool := fun _ => true

/-- The event the label-resolution witness enriches to. -/
def c7event : UsableMessageDetails :=
  ⟨"id1", "t1", "140", ["Inbox", "Lx"], 0,
   [MailAddr.Single ⟨none, ""⟩], [MailAddr.Single ⟨none, ""⟩], ""⟩

/-- C7 witness: the label-resolution theorem applied to a concrete message
with one resolvable and one unresolvable label id. -/
theorem from_details_resolves_labels_witness :
    c7event.labels = c7msg.label_ids.map (fun x => (c7cat.lookup x).getD x) ∧
    c7event.labels.length = c7msg.label_ids.length :=
  from_details_resolves_labels c7addrparse c7tsInRange c7msg c7cat c7event (by rfl)

/-- C8: if the To or From header fails address parsing, or internalDate does
not parse as a millisecond i64 epoch value, enrichment produces an error and
never an event; and an enrichment error on any reference aborts the whole
fetch_mail_details run with that error. -/
theorem enrich_parse_failures_abort :
    (∀ (pa : String → Option MailAddrList) (ts : Int → Bool)
       (msg : MessageDetails) (cat : List (String × String)),
       (pa (headerValue "To" msg.payload.headers) = none ∨
        pa (headerValue "From" msg.payload.headers) = none ∨
        parseI64 msg.internal_date = none) →
       ∃ e, UsableMessageDetails.from_details pa ts msg cat = Except.error e) ∧
    (∀ (fd : MinimalMessage → Option Int × Option MessageDetails)
       (pa : String → Option MailAddrList) (ts : Int → Bool)
       (m : MinimalMessage) (rest : List MinimalMessage)
       (cat : List (String × String)) (d : MessageDetails) (e : EnrichError),
       fd m = ((none : Option Int), some d) →
       UsableMessageDetails.from_details pa ts d cat = .error e →
       fetch_mail_details fd pa ts (m :: rest) cat = .error e) := by
  constructor
  · intro pa ts msg cat h
    unfold UsableMessageDetails.from_details
    rcases h with h | h | h
    · rw [h]
      exact ⟨.AddressParse, rfl⟩
    · cases hto : pa (headerValue "To" msg.payload.headers) with
      | none => exact ⟨.AddressParse, rfl⟩
      | some tp =>
        rw [h]
        exact ⟨.AddressParse, rfl⟩
    · cases hto : pa (headerValue "To" msg.payload.headers) with
      | none => exact ⟨.AddressParse, rfl⟩
      | some tp =>
        cases hfr : pa (headerValue "From" msg.payload.headers) with
        | none => exact ⟨.AddressParse, rfl⟩
        | some fp =>
          rw [h]
          exact ⟨.TimestampParse, rfl⟩
  · intro fd pa ts m rest cat d e hfd hfrom
    rw [fetch_mail_details, hfd]
    simp only [hfrom]
    rfl

/-- Concrete message with an unparsable internalDate for the abort witness. -/
def c8msg : MessageDetails :=
  ⟨"id2", "t2", [], "", "141", "not-a-number", ⟨"0", "", "", []⟩, 0⟩

/-- Concrete address parser for the abort witness. -/
def c8addrparse : String → Option MailAddrList :=
  fun s => some [MailAddr.Single ⟨none, s⟩]

/-- Concrete chrono range oracle for the abort witness. -/
def c8tsInRange : Int → Bool := fun _ => true

/-- Concrete reference for the abort witness. -/
def c8ref : MinimalMessage := ⟨"id2", "t2"⟩

/-- Concrete detail-fetch oracle for the abort witness. -/
def c8fetch : MinimalMessage → Option Int × Option MessageDetails :=
  fun _ => ((none : Option Int), some c8msg)

/-- C8 witness: the abort theorem applied to a concrete message whose
internalDate is unparsable, and to a run containing that message. -/
theorem enrich_parse_failures_abort_witness :
    (∃ e, UsableMessageDetails.from_details c8addrparse c8tsInRange c8msg [] = Except.error e) ∧
    fetch_mail_details c8fetch c8addrparse c8tsInRange [c8ref] [] = .error .TimestampParse :=
  ⟨enrich_parse_failures_abort.1 c8addrparse c8tsInRange c8msg []
     (Or.inr (Or.inr (by decide))),
   enrich_parse_failures_abort.2 c8fetch c8addrparse c8tsInRange c8ref [] [] c8msg
     .TimestampParse (by decide) (by rfl)⟩

/-- C9: a successful token refresh replaces only the access_token field,
leaving refresh_token, client_id and client_secret unchanged and installing
some token; and with no refresh token present the refresh fails with
NoRefreshToken, returning no modified state at all. -/
theorem do_refresh_frame :
    (∀ (tr : String → String → String → Option RefreshResponse) (a a2 : GoogleAuth),
       do_refresh tr a = .ok a2 →
       a2.refresh_token = a.refresh_token ∧ a2.client_id = a.client_id ∧
       a2.client_secret = a.client_secret ∧ ∃ tok, a2.access_token = some tok) ∧
    (∀ (tr : String → String → String → Option RefreshResponse) (a : GoogleAuth),
       a.refresh_token = none →
       do_refresh tr a = .error AuthError.NoRefreshToken) := by
  constructor
  · intro tr a a2 h
    unfold do_refresh at h
    split at h
    · exact absurd h (by simp)
    · split at h
      · exact absurd h (by simp)
      · split at h
        · exact absurd h (by simp)
        · injection h with h2
          subst h2
          exact ⟨rfl, rfl, rfl, _, rfl⟩
  · intro tr a h
    unfold do_refresh
    rw [h]

/-- Concrete credential state for the refresh witness. -/
def c9auth : GoogleAuth :=
  ⟨"cid", "csec", some "oldtok", some "rt"⟩

/-- Concrete credential state without a refresh token for the refresh
witness. -/
def c9authNoRt : GoogleAuth :=
  ⟨"cid", "csec", some "oldtok", none⟩

/-- Concrete transport oracle for the refresh witness. -/
def c9transport : String → String → String → Option RefreshResponse :=
  fun _ _ _ => some ⟨some "newtok"⟩

/-- C9 witness: the frame theorem applied to a concrete refresh that
succeeds, and to a concrete credential state without a refresh token. -/
theorem do_refresh_frame_witness :
    (c9auth.refresh_token = c9auth.refresh_token ∧
     c9auth.client_id = c9auth.client_id ∧
     c9auth.client_secret = c9auth.client_secret ∧
     ∃ tok, (some "newtok" : Option String) = some tok) ∧
    do_refresh c9transport c9authNoRt = .error AuthError.NoRefreshToken := by
  constructor
  · have h := do_refresh_frame.1 c9transport c9auth { c9auth with access_token := some "newtok" }
      (by rfl)
    exact ⟨h.1, h.2.1, h.2.2.1, h.2.2.2⟩
  · exact do_refresh_frame.2 c9transport c9authNoRt (by rfl)

/-- Splitting a character list always yields at least one segment. -/
theorem splitChars_ne_nil (sep : Char) : ∀ cs : List Char, splitChars sep cs ≠ [] := by
  intro cs
  induction cs with
  | nil => simp [splitChars]
  | cons c cs ih =>
    rw [splitChars]
    split
    · simp
    · split
      · simp
      · simp

/-- Splitting a character list not containing the separator yields the one
whole segment. -/
theorem splitChars_no_sep (sep : Char) :
    ∀ cs : List Char, sep ∉ cs → splitChars sep cs = [cs] := by
  intro cs
  induction cs with
  | nil => intro _; rfl
  | cons c cs ih =>
    intro h
    have hc : ¬ c = sep := by
      intro e
      exact h (by simp [e])
    rw [splitChars, if_neg hc, ih (fun hm => h (List.mem_cons_of_mem _ hm))]

/-- Splitting a string on the at sign always yields at least one segment. -/
theorem splitAt_ne_nil (s : String) : splitAt s ≠ [] := by
  unfold splitAt
  intro h
  exact splitChars_ne_nil '@' s.data (List.map_eq_nil_iff.mp h)

/-- C10: first_domain is defined exactly when first_address is; its value is
the lowercasing of the last segment of the first address split on the at
sign (so the unwrap in the source, modelled by getLast?, can never fail);
and for an address containing no at sign it is the entire lowercased
address rather than a failure. -/
theorem first_domain_total :
    ∀ l : MailAddrList,
      ((first_domain l).isSome = (first_address l).isSome) ∧
      (∀ a, first_address l = some a →
         ∃ d, (splitAt a).getLast? = some d ∧ first_domain l = some (to_lowercase d)) ∧
      (∀ a, first_address l = some a → '@' ∉ a.data →
         first_domain l = some (to_lowercase a)) := by
  intro l
  refine ⟨?_, ?_, ?_⟩
  · cases ha : first_address l with
    | none => simp [first_domain, ha]
    | some a =>
      simp only [first_domain, ha, Option.isSome_some]
      have h2 : (splitAt a).getLast?.isSome := List.getLast?_isSome.mpr (splitAt_ne_nil a)
      cases hg : (splitAt a).getLast? with
      | none => rw [hg] at h2; simp at h2
      | some d => simp
  · intro a ha
    have h2 : (splitAt a).getLast?.isSome := List.getLast?_isSome.mpr (splitAt_ne_nil a)
    cases hg : (splitAt a).getLast? with
    | none => rw [hg] at h2; simp at h2
    | some d => exact ⟨d, rfl, by simp [first_domain, ha, hg]⟩
  · intro a ha hnoat
    have hs : splitAt a = [a] := by
      unfold splitAt
      rw [splitChars_no_sep '@' a.data hnoat]
      rfl
    simp [first_domain, ha, hs]

/-- Concrete address list for the domain witness: a group entry followed by
a single address containing no at sign. -/
def c10list : MailAddrList :=
  [MailAddr.Group "g" [], MailAddr.Single ⟨some "N", "NoAtHere"⟩]

/-- C10 witness: the domain theorem applied to a concrete address without an
at sign; the whole lowercased address is returned. -/
theorem first_domain_total_witness :
    first_domain c10list = some (to_lowercase "noathere") :=
  (first_domain_total c10list).2.2 "noathere" (by rfl) (by decide)

end GmailExporter
